import Mathlib

/-!
Verification of the polymarket-agent trading loop: a shallow embedding of the
accounting ledger (`src/accounting.rs`, `src/db.rs`), the Kelly position sizer
(`src/position_sizer.rs`), the edge detector (`src/edge_detector.rs`), the
position manager (`src/position_manager.rs`) and the budget-gated estimator
pipeline (`src/estimator.rs`), with theorems about their behaviour.

Monetary amounts and prices (Rust `f64`) are embedded as exact rationals `ℚ`;
SQL tables are embedded as Lean lists in rowid order (appends at the end of
the list model `INSERT`, which assigns increasing autoincrement ids).
`datetime('now')` timestamp updates are modelled by threading an explicit
`now : String` argument through the mutating operations.
-/

namespace PolymarketAgent

/-- Row of the `bankroll_log` table (schema in `Database::run_migrations`,
`src/db.rs`); the `id` and `created_at` columns are represented by list
position and are not needed by any claim. -/
structure BankrollEntry where
  entry_type : String
  amount : ℚ
  balance_after : ℚ
  description : String
  deriving DecidableEq

/-- Row of the `api_cost_log` table (`src/db.rs`, `run_migrations`). -/
structure ApiCostEntry where
  cycle_number : Int
  market_condition_id : Option String
  model : String
  input_tokens : Nat
  output_tokens : Nat
  cost_usd : ℚ
  call_type : String
  deriving DecidableEq

/-- Row of the `trades` table (`src/db.rs`, `run_migrations`), including the
late-added `entry_fee` column. -/
structure TradeRec where
  trade_id : String
  market_condition_id : String
  token_id : String
  side : String
  price : ℚ
  size : ℚ
  status : String
  paper : Bool
  entry_fee : ℚ
  deriving DecidableEq

/-- Row of the `positions` table (`src/db.rs`, `run_migrations`), including the
late-added `estimated_probability` column.  `id` is the autoincrement primary
key; `created_at` is not modelled. -/
structure PositionRecord where
  id : Nat
  market_condition_id : String
  token_id : String
  side : String
  entry_price : ℚ
  current_price : Option ℚ
  size : ℚ
  unrealized_pnl : ℚ
  realized_pnl : ℚ
  status : String
  estimated_probability : Option ℚ
  updated_at : String
  deriving DecidableEq

/-- The ledger state (`Database` in `src/db.rs`).  The `markets` table is
represented by its set of `condition_id`s, which is the only column consulted
by the claims (the trades/positions foreign keys reference it).  Lists are in
rowid order; `next_position_id` models the positions autoincrement counter. -/
structure Database where
  markets : List String
  trades : List TradeRec
  positions : List PositionRecord
  bankroll_log : List BankrollEntry
  api_cost_log : List ApiCostEntry
  peak_bankroll : List ℚ
  next_position_id : Nat
  deriving DecidableEq

/-- A fresh database, as produced by `Database::open_in_memory` after the
migrations: every table empty. -/
def emptyDatabase : Database :=
  { markets := [], trades := [], positions := [], bankroll_log := [],
    api_cost_log := [], peak_bankroll := [], next_position_id := 0 }

/-- `Database::get_current_bankroll`: `balance_after` of the last
`bankroll_log` row, or `0.0` when the table is empty (`COALESCE`). -/
def Database.get_current_bankroll (db : Database) : ℚ :=
  match db.bankroll_log.getLast? with
  | some e => e.balance_after
  | none => 0

/-- `Database::get_cycle_api_cost`: `COALESCE(SUM(cost_usd), 0.0)` over the
`api_cost_log` rows of the given cycle. -/
def Database.get_cycle_api_cost (db : Database) (cycle_number : Int) : ℚ :=
  ((db.api_cost_log.filter (fun e => e.cycle_number = cycle_number)).map
    (fun e => e.cost_usd)).sum

/-- `Database::log_bankroll_entry`: append one `bankroll_log` row. -/
def Database.log_bankroll_entry (db : Database) (entry_type : String)
    (amount balance_after : ℚ) (description : String) : Database :=
  { db with bankroll_log :=
      db.bankroll_log ++ [⟨entry_type, amount, balance_after, description⟩] }

/-- `Database::log_api_cost`: append one `api_cost_log` row. -/
def Database.log_api_cost (db : Database) (cycle_number : Int)
    (market_condition_id : Option String) (model : String)
    (input_tokens output_tokens : Nat) (cost_usd : ℚ) (call_type : String) :
    Database :=
  { db with api_cost_log := db.api_cost_log ++
      [⟨cycle_number, market_condition_id, model, input_tokens, output_tokens,
        cost_usd, call_type⟩] }

/-- Database errors surfaced to callers.  Modelled from the spec: the SQLite
foreign-key enforcement configuration (a connection pragma or build flag of
the `rusqlite` dependency) is not part of the sources; the spec states that
`insert_trade` "fails with `ForeignKeyViolation` if market unknown", matching
the `FOREIGN KEY (market_condition_id) REFERENCES markets(condition_id)`
clause declared in `run_migrations`. -/
inductive DbError
  | foreignKeyViolation
  deriving DecidableEq

/-- `Database::insert_trade`: append one `trades` row; per the declared
foreign key (see `DbError`), fails with `foreignKeyViolation` when no market
with the given `condition_id` exists.  The `UNIQUE` constraint on `trade_id`
is not modelled (no claim concerns it). -/
def Database.insert_trade (db : Database) (trade_id market_condition_id
    token_id side : String) (price size : ℚ) (status : String) (paper : Bool)
    (entry_fee : ℚ) : Except DbError Database :=
  if db.markets.contains market_condition_id then
    Except.ok { db with trades := db.trades ++
      [⟨trade_id, market_condition_id, token_id, side, price, size, status,
        paper, entry_fee⟩] }
  else
    Except.error DbError.foreignKeyViolation

/-- The `WHERE market_condition_id = ?1 AND side = ?2 AND status = 'open'`
filter used by the position queries in `src/db.rs`. -/
def PositionRecord.openFor (r : PositionRecord)
    (market_condition_id side : String) : Bool :=
  r.market_condition_id = market_condition_id && r.side = side &&
    r.status = "open"

/-- `Database::upsert_position`: if an open row exists for (market, side),
replace its entry price by the size-weighted average and sum the sizes
(`UPDATE ... WHERE id = ?4`); otherwise insert a fresh `open` row. -/
def Database.upsert_position (db : Database)
    (market_condition_id token_id side : String) (entry_price size : ℚ)
    (now : String) : Database :=
  match db.positions.find? (fun r => r.openFor market_condition_id side) with
  | some p =>
      let total_size := p.size + size
      let avg_price := (p.entry_price * p.size + entry_price * size) / total_size
      { db with positions := db.positions.map (fun r =>
          if r.id = p.id then
            { r with
              entry_price := avg_price, size := total_size,
              token_id := token_id, updated_at := now }
          else r) }
  | none =>
      { db with
        positions := db.positions ++
          [{ id := db.next_position_id,
             market_condition_id := market_condition_id,
             token_id := token_id, side := side, entry_price := entry_price,
             current_price := none, size := size, unrealized_pnl := 0,
             realized_pnl := 0, status := "open",
             estimated_probability := none, updated_at := now }],
        next_position_id := db.next_position_id + 1 }

/-- `Database::upsert_position_with_estimate`: like `upsert_position`, but the
update sets `estimated_probability = COALESCE(?4, estimated_probability)` and
the insert stores the given optional estimate directly. -/
def Database.upsert_position_with_estimate (db : Database)
    (market_condition_id token_id side : String) (entry_price size : ℚ)
    (estimated_probability : Option ℚ) (now : String) : Database :=
  match db.positions.find? (fun r => r.openFor market_condition_id side) with
  | some p =>
      let total_size := p.size + size
      let avg_price := (p.entry_price * p.size + entry_price * size) / total_size
      { db with positions := db.positions.map (fun r =>
          if r.id = p.id then
            { r with
              entry_price := avg_price, size := total_size,
              token_id := token_id,
              estimated_probability :=
                match estimated_probability with
                | some e => some e
                | none => r.estimated_probability,
              updated_at := now }
          else r) }
  | none =>
      { db with
        positions := db.positions ++
          [{ id := db.next_position_id,
             market_condition_id := market_condition_id,
             token_id := token_id, side := side, entry_price := entry_price,
             current_price := none, size := size, unrealized_pnl := 0,
             realized_pnl := 0, status := "open",
             estimated_probability := estimated_probability,
             updated_at := now }],
        next_position_id := db.next_position_id + 1 }

/-- `Database::close_position`: read the open row for (market, side) — `none`
models the `query_row` error when there is no such row — compute
`realized_pnl = (exit_price - entry_price) * size`, then
`UPDATE positions SET status='closed', current_price=?1, realized_pnl=?2,
unrealized_pnl=0.0, updated_at=datetime('now') WHERE market AND side AND
status='open'`. -/
def Database.close_position (db : Database) (market_condition_id side : String)
    (exit_price : ℚ) (now : String) : Option (ℚ × Database) :=
  match db.positions.find? (fun r => r.openFor market_condition_id side) with
  | none => none
  | some p =>
      let realized_pnl := (exit_price - p.entry_price) * p.size
      some (realized_pnl,
        { db with positions := db.positions.map (fun r =>
            if r.openFor market_condition_id side then
              { r with
                status := "closed", current_price := some exit_price,
                realized_pnl := realized_pnl, unrealized_pnl := 0,
                updated_at := now }
            else r) })

/-- `Database::update_peak_bankroll`: read the latest `peak_bankroll` row
(`ORDER BY id DESC LIMIT 1`); append `current` and return it when it exceeds
the stored peak or when the table is empty, else return the stored peak. -/
def Database.update_peak_bankroll (db : Database) (current : ℚ) :
    ℚ × Database :=
  match db.peak_bankroll.getLast? with
  | some p =>
      if p < current then
        (current, { db with peak_bankroll := db.peak_bankroll ++ [current] })
      else
        (p, db)
  | none =>
      (current, { db with peak_bankroll := db.peak_bankroll ++ [current] })

/-- `Database::get_peak_bankroll`: latest peak row, `0.0` when empty. -/
def Database.get_peak_bankroll (db : Database) : ℚ :=
  match db.peak_bankroll.getLast? with
  | some p => p
  | none => 0

/-- `CycleAccounting` (`src/accounting.rs`). -/
structure CycleAccounting where
  bankroll_before : ℚ
  bankroll_after : ℚ
  api_cost : ℚ
  is_alive : Bool
  deriving DecidableEq

/-- `Accountant::close_cycle` (`src/accounting.rs`): read the current bankroll
and the cycle's summed API cost; when the cost is positive, append one
`api_cost` bankroll entry debiting it; return the accounting summary with
`is_alive = bankroll_after > 0`.  (`Accountant.low_bankroll_threshold` is not
read by `close_cycle`, so the receiver is omitted.) -/
def Accountant.close_cycle (db : Database) (cycle_number : Int) :
    CycleAccounting × Database :=
  let bankroll_before := db.get_current_bankroll
  let api_cost := db.get_cycle_api_cost cycle_number
  if 0 < api_cost then
    let after := bankroll_before - api_cost
    let db' := db.log_bankroll_entry "api_cost" (-api_cost) after
      (s!"Cycle {cycle_number} API cost")
    (⟨bankroll_before, after, api_cost, decide (0 < after)⟩, db')
  else
    (⟨bankroll_before, bankroll_before, api_cost,
      decide (0 < bankroll_before)⟩, db)

/-- `TradeSide` (`src/edge_detector.rs`). -/
inductive TradeSide
  | Yes
  | No
  deriving DecidableEq

/-- `FairValueEstimate` (`src/estimator.rs`). -/
structure FairValueEstimate where
  probability : ℚ
  confidence : ℚ
  reasoning : String
  data_quality : String
  deriving DecidableEq

/-- `ApiCallCost` (`src/estimator.rs`). -/
structure ApiCallCost where
  model : String
  input_tokens : Nat
  output_tokens : Nat
  cost_usd : ℚ
  deriving DecidableEq

/-- `AnalysisResult` (`src/estimator.rs`). -/
structure AnalysisResult where
  market_id : String
  question : String
  estimate : FairValueEstimate
  market_yes_price : ℚ
  total_cost : ℚ
  api_calls : List ApiCallCost
  deriving DecidableEq

/-- `EdgeOpportunity` (`src/edge_detector.rs`). -/
structure EdgeOpportunity where
  market_id : String
  question : String
  side : TradeSide
  estimated_probability : ℚ
  market_price : ℚ
  edge : ℚ
  net_edge : ℚ
  confidence : ℚ
  data_quality : String
  reasoning : String
  analysis_cost : ℚ
  deriving DecidableEq

/-- `EdgeDetector` (`src/edge_detector.rs`). -/
structure EdgeDetector where
  min_edge_threshold : ℚ
  min_confidence : ℚ
  fee_rate : ℚ
  deriving DecidableEq

/-- `EdgeDetector::new`: `min_confidence` defaults to `0.50`. -/
def EdgeDetector.new (min_edge_threshold fee_rate : ℚ) : EdgeDetector :=
  ⟨min_edge_threshold, 0.50, fee_rate⟩

/-- `EdgeDetector::detect` (`src/edge_detector.rs:51`): choose the side with
the larger edge (ties to YES), subtract round-trip fees, reject when the net
edge is below the threshold or the confidence below the minimum. -/
def EdgeDetector.detect (d : EdgeDetector) (analysis : AnalysisResult) :
    Option EdgeOpportunity :=
  let estimated_yes := analysis.estimate.probability
  let market_yes := analysis.market_yes_price
  let yes_edge := estimated_yes - market_yes
  let no_edge := market_yes - estimated_yes
  let side_edge := if yes_edge ≥ no_edge then (TradeSide.Yes, yes_edge)
    else (TradeSide.No, no_edge)
  let net_edge := side_edge.2 - 2 * d.fee_rate
  if net_edge < d.min_edge_threshold then none
  else if analysis.estimate.confidence < d.min_confidence then none
  else some
    { market_id := analysis.market_id
      question := analysis.question
      side := side_edge.1
      estimated_probability := estimated_yes
      market_price := market_yes
      edge := side_edge.2
      net_edge := net_edge
      confidence := analysis.estimate.confidence
      data_quality := analysis.estimate.data_quality
      reasoning := analysis.estimate.reasoning
      analysis_cost := analysis.total_cost }

/-- `PositionSizer` (`src/position_sizer.rs`). -/
structure PositionSizer where
  kelly_fraction : ℚ
  max_position_pct : ℚ
  max_total_exposure_pct : ℚ
  deriving DecidableEq

/-- The rejection reasons produced by `PositionSizer` (`src/position_sizer.rs`).
Each constructor stands for the corresponding source message string:
`"buy price >= 1.0"`, `"negative Kelly — no edge"`,
`"exposure limit reached"` and
`"position too small: $<position_usd> < $1.00 minimum"` (the formatted value
is carried as a field). -/
inductive RejectReason
  | buyPriceAtLeastOne
  | negativeKelly
  | exposureLimitReached
  | positionTooSmall (position_usd : ℚ)
  deriving DecidableEq

/-- `SizingResult` (`src/position_sizer.rs`), with `reject_reason` abstracted
to `RejectReason` (see there). -/
structure SizingResult where
  raw_kelly : ℚ
  adjusted_kelly : ℚ
  position_usd : ℚ
  shares : ℚ
  limit_price : ℚ
  reject_reason : Option RejectReason
  deriving DecidableEq

/-- `SizingResult::rejected`: all numeric fields zero. -/
def SizingResult.rejected (reason : RejectReason) : SizingResult :=
  ⟨0, 0, 0, 0, 0, some reason⟩

/-- `PositionSizer::size_position_with_time` (`src/position_sizer.rs:69`).
The Rust `match days { 0..=2 => 1.0, 3..=4 => 0.7, 5..=7 => 0.4, _ => 0.2 }`
is written as the corresponding chain of inclusive range tests. -/
def PositionSizer.size_position_with_time (s : PositionSizer)
    (opp : EdgeOpportunity) (bankroll current_exposure : ℚ)
    (days_until_resolution : Option Int) : SizingResult :=
  let buy_price := match opp.side with
    | TradeSide.Yes => opp.market_price
    | TradeSide.No => 1 - opp.market_price
  let win_prob := match opp.side with
    | TradeSide.Yes => opp.estimated_probability
    | TradeSide.No => 1 - opp.estimated_probability
  if buy_price ≥ 1 then SizingResult.rejected RejectReason.buyPriceAtLeastOne
  else
    let raw_kelly := (win_prob - buy_price) / (1 - buy_price)
    if raw_kelly ≤ 0 then SizingResult.rejected RejectReason.negativeKelly
    else
      let adjusted_kelly := raw_kelly * s.kelly_fraction
      let adjusted_kelly := match days_until_resolution with
        | some days =>
            let time_multiplier : ℚ :=
              if 0 ≤ days ∧ days ≤ 2 then 1
              else if 3 ≤ days ∧ days ≤ 4 then 0.7
              else if 5 ≤ days ∧ days ≤ 7 then 0.4
              else 0.2
            adjusted_kelly * time_multiplier
        | none => adjusted_kelly
      let max_exposure := s.max_total_exposure_pct * bankroll
      let remaining_exposure := max (max_exposure - current_exposure) 0
      if remaining_exposure ≤ 0 then
        SizingResult.rejected RejectReason.exposureLimitReached
      else
        let position_usd :=
          min (min (adjusted_kelly * bankroll) (s.max_position_pct * bankroll))
            remaining_exposure
        if position_usd < 1 then
          SizingResult.rejected (RejectReason.positionTooSmall position_usd)
        else
          { raw_kelly := raw_kelly
            adjusted_kelly := adjusted_kelly
            position_usd := position_usd
            shares := position_usd / buy_price
            limit_price := buy_price
            reject_reason := none }

/-- `PositionSizer::size_position`: the time-less entry point. -/
def PositionSizer.size_position (s : PositionSizer) (opp : EdgeOpportunity)
    (bankroll current_exposure : ℚ) : SizingResult :=
  s.size_position_with_time opp bankroll current_exposure none

/-- `PositionRow` (`src/db.rs`): the open-position query result consumed by
the position manager. -/
structure PositionRow where
  market_condition_id : String
  token_id : String
  side : String
  entry_price : ℚ
  size : ℚ
  status : String
  current_price : Option ℚ
  unrealized_pnl : ℚ
  estimated_probability : Option ℚ
  question : Option String
  deriving DecidableEq

/-- The exit reasons produced by the position manager
(`src/position_manager.rs`).  Each constructor stands for the source's
formatted message with the corresponding `"Stop-loss"`, `"Take-profit"` or
`"Edge decay"` head. -/
inductive ExitReason
  | stopLoss
  | takeProfit
  | edgeDecay
  deriving DecidableEq

/-- `PositionAction` (`src/position_manager.rs`), with the reason strings
abstracted to `ExitReason`. -/
inductive PositionAction
  | Hold
  | Exit (reason : ExitReason)
  | ReAnalyze (reason : String)
  deriving DecidableEq

/-- `PositionManager` (`src/position_manager.rs`); the static
`correlation_groups` table is not needed by `evaluate_position` and is
omitted. -/
structure PositionManager where
  stop_loss_pct : ℚ
  take_profit_pct : ℚ
  min_exit_edge : ℚ
  volume_spike_factor : ℚ
  whale_move_threshold : ℚ
  max_correlated_exposure_pct : ℚ
  max_total_weather_exposure_pct : ℚ
  deriving DecidableEq

/-- `PositionManager::check_stop_loss` (`src/position_manager.rs:281`). -/
def PositionManager.check_stop_loss (m : PositionManager) (pos : PositionRow)
    (current_price : ℚ) : Option PositionAction :=
  if pos.entry_price ≤ 0 then none
  else
    let loss_pct := (pos.entry_price - current_price) / pos.entry_price
    if loss_pct > m.stop_loss_pct then
      some (PositionAction.Exit ExitReason.stopLoss)
    else none

/-- `PositionManager::check_take_profit` (`src/position_manager.rs:306`). -/
def PositionManager.check_take_profit (m : PositionManager) (pos : PositionRow)
    (current_price : ℚ) : Option PositionAction :=
  if pos.entry_price ≥ 1 then none
  else
    let max_profit := 1 - pos.entry_price
    if max_profit ≤ 0 then none
    else
      let current_profit := current_price - pos.entry_price
      let captured_pct := current_profit / max_profit
      if captured_pct ≥ m.take_profit_pct then
        some (PositionAction.Exit ExitReason.takeProfit)
      else none

/-- `PositionManager::check_edge_decay` (`src/position_manager.rs:336`). -/
def PositionManager.check_edge_decay (m : PositionManager) (pos : PositionRow)
    (current_price : ℚ) : Option PositionAction :=
  match pos.estimated_probability with
  | none => none
  | some estimated_prob =>
      let current_edge := |estimated_prob - current_price|
      if current_edge < m.min_exit_edge then
        some (PositionAction.Exit ExitReason.edgeDecay)
      else none

/-- `PositionManager::evaluate_position` (`src/position_manager.rs:251`).
The weather test `parse_weather_market(q).is_some()` depends on regex parsing
and the wall clock (`Utc::now` for year inference), so it is abstracted as the
function argument `parse_weather_is_some`; every theorem below quantifies
over it. -/
def PositionManager.evaluate_position (parse_weather_is_some : String → Bool)
    (m : PositionManager) (pos : PositionRow) (current_price : ℚ) :
    PositionAction :=
  let is_weather := match pos.question with
    | some q => parse_weather_is_some q
    | none => false
  if is_weather then
    match m.check_edge_decay pos current_price with
    | some action => action
    | none => PositionAction.Hold
  else
    match m.check_stop_loss pos current_price with
    | some action => action
    | none =>
        match m.check_take_profit pos current_price with
        | some action => action
        | none =>
            match m.check_edge_decay pos current_price with
            | some action => action
            | none => PositionAction.Hold

/-- `TriageDecision` (`src/estimator.rs`). -/
inductive TriageDecision
  | Analyze
  | Skip
  deriving DecidableEq

/-- Minimal `GammaMarket` (`src/market_scanner.rs`): the fields read by
`Estimator::evaluate`. -/
structure GammaMarket where
  condition_id : Option String
  question : String
  deriving DecidableEq

/-- Minimal `MarketPrices`: the `midpoint` field read by
`Estimator::evaluate`. -/
structure MarketPrices where
  midpoint : ℚ
  deriving DecidableEq

/-- The LLM calls `Estimator::evaluate` may perform; the second component of
the result records which ones were performed, in order. -/
inductive LlmCall
  | triage
  | analysis
  deriving DecidableEq

/-- `Estimator::evaluate` (`src/estimator.rs:262`).  The two network calls
`self.triage` and `self.analyze` are nondeterministic LLM invocations, so
their successful outcomes are taken as the oracle arguments `triage_outcome`
and `analysis_outcome`; the returned list records which of the two calls were
actually performed.  Control flow and cost accounting follow the source:
return `none` before triage when `cycle_cost_so_far >= max_cost_per_cycle`;
after triage return `none` on a Skip decision or when
`cycle_cost_so_far + triage_cost >= max_cost_per_cycle`; otherwise run the
deep analysis and return the result with `total_cost` the sum of both calls'
costs. -/
def Estimator.evaluate (triage_outcome : TriageDecision × ApiCallCost)
    (analysis_outcome : FairValueEstimate × ApiCallCost)
    (market : GammaMarket) (prices : MarketPrices)
    (cycle_cost_so_far max_cost_per_cycle : ℚ) :
    Option AnalysisResult × List LlmCall :=
  if cycle_cost_so_far ≥ max_cost_per_cycle then (none, [])
  else
    let decision := triage_outcome.1
    let triage_cost := triage_outcome.2
    let total_cost := triage_cost.cost_usd
    if decision = TriageDecision.Skip then (none, [LlmCall.triage])
    else if cycle_cost_so_far + total_cost ≥ max_cost_per_cycle then
      (none, [LlmCall.triage])
    else
      let estimate := analysis_outcome.1
      let analysis_cost := analysis_outcome.2
      (some
        { market_id := market.condition_id.getD ""
          question := market.question
          estimate := estimate
          market_yes_price := prices.midpoint
          total_cost := total_cost + analysis_cost.cost_usd
          api_calls := [triage_cost, analysis_cost] },
       [LlmCall.triage, LlmCall.analysis])

/-- Specification-side restatement of `EdgeDetector::detect`, following the
spec's words: accept iff `max(e-m, m-e) - 2*fee_rate ≥ min_edge_threshold`
and `confidence ≥ min_confidence`; side is YES when `e - m ≥ m - e` (ties to
YES); `edge = max(e-m, m-e)`; `net_edge = edge - 2*fee_rate`.  Compared with
the source embedding `EdgeDetector.detect` in the refinement theorem. -/
def EdgeDetector.detectSpec (d : EdgeDetector) (analysis : AnalysisResult) :
    Option EdgeOpportunity :=
  let e := analysis.estimate.probability
  let mkt := analysis.market_yes_price
  let edge := max (e - mkt) (mkt - e)
  let net_edge := edge - 2 * d.fee_rate
  if net_edge ≥ d.min_edge_threshold ∧
      analysis.estimate.confidence ≥ d.min_confidence then
    some
      { market_id := analysis.market_id
        question := analysis.question
        side := if e - mkt ≥ mkt - e then TradeSide.Yes else TradeSide.No
        estimated_probability := e
        market_price := mkt
        edge := edge
        net_edge := net_edge
        confidence := analysis.estimate.confidence
        data_quality := analysis.estimate.data_quality
        reasoning := analysis.estimate.reasoning
        analysis_cost := analysis.total_cost }
  else none

/-- Specification-side restatement of
`PositionSizer::size_position_with_time`, following the spec's words:
reject in order on `buy_price ≥ 1`, `raw_kelly ≤ 0`,
`remaining = max(max_total_exposure_pct*B - E, 0) ≤ 0`, and
`position_usd = min(raw_kelly * kelly_fraction * time_multiplier(d) * B,
max_position_pct * B, remaining) < 1`, where the time multiplier is `1` when
`d` is absent; otherwise accept with `shares = position_usd / buy_price` and
`limit_price = buy_price`.  Compared with the source embedding in the
refinement theorem. -/
def PositionSizer.sizePositionSpec (s : PositionSizer) (opp : EdgeOpportunity)
    (bankroll current_exposure : ℚ) (days_until_resolution : Option Int) :
    SizingResult :=
  let buy_price : ℚ := match opp.side with
    | TradeSide.Yes => opp.market_price
    | TradeSide.No => 1 - opp.market_price
  let win_prob : ℚ := match opp.side with
    | TradeSide.Yes => opp.estimated_probability
    | TradeSide.No => 1 - opp.estimated_probability
  if buy_price ≥ 1 then SizingResult.rejected RejectReason.buyPriceAtLeastOne
  else
    let raw_kelly := (win_prob - buy_price) / (1 - buy_price)
    if raw_kelly ≤ 0 then SizingResult.rejected RejectReason.negativeKelly
    else
      let remaining := max (s.max_total_exposure_pct * bankroll - current_exposure) 0
      if remaining ≤ 0 then
        SizingResult.rejected RejectReason.exposureLimitReached
      else
        let time_multiplier : ℚ := match days_until_resolution with
          | none => 1
          | some days =>
              if 0 ≤ days ∧ days ≤ 2 then 1
              else if 3 ≤ days ∧ days ≤ 4 then 0.7
              else if 5 ≤ days ∧ days ≤ 7 then 0.4
              else 0.2
        let position_usd :=
          min (min (raw_kelly * s.kelly_fraction * time_multiplier * bankroll)
            (s.max_position_pct * bankroll)) remaining
        if position_usd < 1 then
          SizingResult.rejected (RejectReason.positionTooSmall position_usd)
        else
          { raw_kelly := raw_kelly
            adjusted_kelly := raw_kelly * s.kelly_fraction * time_multiplier
            position_usd := position_usd
            shares := position_usd / buy_price
            limit_price := buy_price
            reject_reason := none }

/-- Specification-side restatement of `PositionManager::evaluate_position`,
following the spec's words: weather positions skip the price-based exits and
can only exit on edge decay; otherwise stop-loss fires on
`(entry - current)/entry > stop_loss_pct`, then take-profit on
`(current - entry)/(1 - entry) ≥ take_profit_pct`, then edge decay (when a
stored estimate exists) on `|estimate - current| < min_exit_edge`, else Hold.
Compared with the source embedding in the refinement theorem. -/
def PositionManager.evaluatePositionSpec
    (parse_weather_is_some : String → Bool) (m : PositionManager)
    (pos : PositionRow) (current_price : ℚ) : PositionAction :=
  let is_weather := match pos.question with
    | some q => parse_weather_is_some q
    | none => false
  let edge_decay : Option PositionAction :=
    match pos.estimated_probability with
    | some est =>
        if |est - current_price| < m.min_exit_edge then
          some (PositionAction.Exit ExitReason.edgeDecay)
        else none
    | none => none
  if is_weather then
    match edge_decay with
    | some action => action
    | none => PositionAction.Hold
  else if (pos.entry_price - current_price) / pos.entry_price >
      m.stop_loss_pct then
    PositionAction.Exit ExitReason.stopLoss
  else if (current_price - pos.entry_price) / (1 - pos.entry_price) ≥
      m.take_profit_pct then
    PositionAction.Exit ExitReason.takeProfit
  else
    match edge_decay with
    | some action => action
    | none => PositionAction.Hold

/-- Concrete ledger fixture: bankroll seeded at 50 and a single API cost of
0.10 logged for cycle 1 (mirrors the `test_close_cycle_no_double_deduction`
setup in `src/accounting.rs`). -/
def dbC7 : Database :=
  (emptyDatabase.log_bankroll_entry "seed" 50 50
    "Initial seed funding").log_api_cost 1 none "haiku" 500 50 (1/10) "triage"

/-- Concrete ledger fixture: a database knowing only market `0xabc`. -/
def dbC2 : Database := { emptyDatabase with markets := ["0xabc"] }

/-- Concrete ledger fixture: a peak table holding only 50. -/
def dbPeak50 : Database := { emptyDatabase with peak_bankroll := [50] }

/-- Concrete position fixture: an already-closed row for market `0xc1`. -/
def pClosed : PositionRecord :=
  ⟨0, "0xc1", "tok1", "YES", 1/2, none, 10, 0, 0, "closed", none, "t0"⟩

/-- Concrete position fixture: the open YES row for market `0xc1`. -/
def pOpen : PositionRecord :=
  ⟨1, "0xc1", "tok1", "YES", 3/5, none, 10, 0, 0, "open", some (3/4), "t0"⟩

/-- Concrete position fixture: an open row for the unrelated market `0xc2`. -/
def pOther : PositionRecord :=
  ⟨2, "0xc2", "tok2", "NO", 2/5, none, 5, 0, 0, "open", none, "t0"⟩

/-- Concrete ledger fixture with three positions rows: a closed row and an
open row for market `0xc1`, and an open row for market `0xc2`. -/
def dbPositions : Database :=
  { emptyDatabase with
    markets := ["0xc1", "0xc2"],
    positions := [pClosed, pOpen, pOther], next_position_id := 3 }

/-- Concrete manager fixture with the thresholds used by the source tests:
15% stop-loss, 90% take-profit, 2% exit edge. -/
def weatherManager : PositionManager := ⟨0.15, 0.90, 0.02, 3, 5000, 0.10, 0.25⟩

/-- Concrete position fixture: a weather position entered at 0.036 with a
stored estimate of 0.75. -/
def weatherPos : PositionRow :=
  ⟨"0xnyc", "tok_nyc", "YES", 0.036, 80, "open", none, 0, some 0.75,
    some "Will the high temperature in NYC on 2026-02-20 be between 40F and 42F?"⟩

/-- `List.find?` on a decomposed list: when everything before `a` fails the
predicate and `a` satisfies it, the first hit is `a`. -/
theorem find?_append_cons {α : Type} (p : α → Bool) (l1 l2 : List α) (a : α)
    (h1 : ∀ x ∈ l1, p x = false) (ha : p a = true) :
    (l1 ++ a :: l2).find? p = some a := by
  induction l1 with
  | nil => simp [List.find?, ha]
  | cons b t ih =>
      have hb := h1 b (List.mem_cons_self b t)
      simp only [List.cons_append, List.find?, hb]
      exact ih (fun x hx => h1 x (List.mem_cons_of_mem b hx))

/-- Mapping `if q x then f x else x` over a decomposed list touches exactly
the one element satisfying `q`. -/
theorem map_ite_append {α : Type} (q : α → Prop) [DecidablePred q]
    (f : α → α) (l1 l2 : List α) (a : α)
    (h1 : ∀ x ∈ l1, ¬ q x) (h2 : ∀ x ∈ l2, ¬ q x) (ha : q a) :
    (l1 ++ a :: l2).map (fun x => if q x then f x else x) = l1 ++ f a :: l2 := by
  induction l1 with
  | nil =>
      simp only [List.nil_append, List.map_cons, if_pos ha, List.cons.injEq,
        true_and]
      induction l2 with
      | nil => rfl
      | cons c t ih2 =>
          have hc := h2 c (List.mem_cons_self c t)
          simp only [List.map_cons, if_neg hc, List.cons.injEq, true_and]
          exact ih2 (fun x hx => h2 x (List.mem_cons_of_mem c hx))
  | cons b t ih =>
      have hb := h1 b (List.mem_cons_self b t)
      simp only [List.cons_append, List.map_cons, if_neg hb, List.cons.injEq,
        true_and]
      exact ih (fun x hx => h1 x (List.mem_cons_of_mem b hx))

/-- `close_cycle` reads the bankroll only through `get_current_bankroll`. -/
theorem close_cycle_before (db : Database) (n : Int) :
    (Accountant.close_cycle db n).1.bankroll_before =
      db.get_current_bankroll := by
  unfold Accountant.close_cycle
  dsimp only
  split <;> rfl

/-- `close_cycle` never touches the `api_cost_log` table. -/
theorem close_cycle_api_cost_log (db : Database) (n : Int) :
    (Accountant.close_cycle db n).2.api_cost_log = db.api_cost_log := by
  unfold Accountant.close_cycle
  dsimp only
  split <;> rfl

/-- `get_cycle_api_cost` only depends on the `api_cost_log` table. -/
theorem get_cycle_api_cost_congr (db1 db2 : Database) (n : Int)
    (h : db1.api_cost_log = db2.api_cost_log) :
    db1.get_cycle_api_cost n = db2.get_cycle_api_cost n := by
  unfold Database.get_cycle_api_cost
  rw [h]

/-- When the cycle cost is positive, `close_cycle` leaves the current bankroll
debited by exactly that cost. -/
theorem close_cycle_debits (db : Database) (n : Int)
    (h : 0 < db.get_cycle_api_cost n) :
    (Accountant.close_cycle db n).2.get_current_bankroll =
      db.get_current_bankroll - db.get_cycle_api_cost n := by
  unfold Accountant.close_cycle
  rw [if_pos h]
  simp [Database.log_bankroll_entry, Database.get_current_bankroll,
    List.getLast?_concat]

/-- Claim C1: `close_cycle(N)` reads `bankroll_before` as the current bankroll
and `c` as the summed API cost of cycle `N`; if `c > 0` it appends exactly one
bankroll entry of kind `api_cost`, amount `-c`, balance
`bankroll_before - c`, and returns `bankroll_after = bankroll_before - c`;
if `c` is not positive it appends nothing and returns
`bankroll_after = bankroll_before`; in both cases `is_alive` is true iff
`bankroll_after > 0`. -/
theorem close_cycle_correct (db : Database) (n : Int) :
    (Accountant.close_cycle db n).1.bankroll_before =
        db.get_current_bankroll ∧
    (Accountant.close_cycle db n).1.api_cost = db.get_cycle_api_cost n ∧
    (Accountant.close_cycle db n).2.bankroll_log =
      (if 0 < db.get_cycle_api_cost n then
        db.bankroll_log ++
          [⟨"api_cost", -(db.get_cycle_api_cost n),
            db.get_current_bankroll - db.get_cycle_api_cost n,
            s!"Cycle {n} API cost"⟩]
      else db.bankroll_log) ∧
    (Accountant.close_cycle db n).1.bankroll_after =
      (if 0 < db.get_cycle_api_cost n then
        db.get_current_bankroll - db.get_cycle_api_cost n
      else db.get_current_bankroll) ∧
    ((Accountant.close_cycle db n).1.is_alive = true ↔
      0 < (Accountant.close_cycle db n).1.bankroll_after) := by
  unfold Accountant.close_cycle
  dsimp only
  by_cases h : 0 < db.get_cycle_api_cost n
  · simp [h, Database.log_bankroll_entry]
  · simp [h]

/-- Claim C7: calling `close_cycle(N)` twice for the same cycle number with a
positive logged cost `c` double-debits — the second call starts from the
already-debited balance and the final bankroll is the original minus `2c`. -/
theorem close_cycle_double_debit (db : Database) (n : Int)
    (h : 0 < db.get_cycle_api_cost n) :
    (Accountant.close_cycle (Accountant.close_cycle db n).2 n).1.bankroll_before
        = db.get_current_bankroll - db.get_cycle_api_cost n ∧
    (Accountant.close_cycle
        (Accountant.close_cycle db n).2 n).2.get_current_bankroll
      = db.get_current_bankroll - 2 * db.get_cycle_api_cost n := by
  have hc : (Accountant.close_cycle db n).2.get_cycle_api_cost n =
      db.get_cycle_api_cost n :=
    get_cycle_api_cost_congr _ _ n (close_cycle_api_cost_log db n)
  have h2 : 0 < (Accountant.close_cycle db n).2.get_cycle_api_cost n := by
    rw [hc]; exact h
  constructor
  · rw [close_cycle_before, close_cycle_debits db n h]
  · rw [close_cycle_debits _ n h2, hc, close_cycle_debits db n h]
    ring

/-- Witness for C7: bankroll seeded at 50, one API cost of 0.10 logged for
cycle 1; closing cycle 1 twice leaves the bankroll at 50 - 2*0.10. -/
theorem close_cycle_double_debit_witness :
    0 < dbC7.get_cycle_api_cost 1 ∧
    (Accountant.close_cycle
        (Accountant.close_cycle dbC7 1).2 1).2.get_current_bankroll
      = dbC7.get_current_bankroll - 2 * dbC7.get_cycle_api_cost 1 := by
  have h : 0 < dbC7.get_cycle_api_cost 1 := by
    norm_num [dbC7, emptyDatabase, Database.log_api_cost,
      Database.log_bankroll_entry, Database.get_cycle_api_cost]
  exact ⟨h, (close_cycle_double_debit dbC7 1 h).2⟩

/-- Claim C2: `insert_trade` fails with a foreign-key violation exactly when
the market is unknown (appending nothing), and otherwise appends exactly one
trades row. -/
theorem insert_trade_foreign_key (db : Database)
    (trade_id market_condition_id token_id side : String) (price size : ℚ)
    (status : String) (paper : Bool) (entry_fee : ℚ) :
    (db.insert_trade trade_id market_condition_id token_id side price size
        status paper entry_fee = Except.error DbError.foreignKeyViolation ↔
      db.markets.contains market_condition_id = false) ∧
    (db.markets.contains market_condition_id = true →
      db.insert_trade trade_id market_condition_id token_id side price size
          status paper entry_fee =
        Except.ok { db with trades := db.trades ++
          [⟨trade_id, market_condition_id, token_id, side, price, size,
            status, paper, entry_fee⟩] }) := by
  unfold Database.insert_trade
  by_cases h : db.markets.contains market_condition_id <;> simp [h]

/-- Witness for C2: a database knowing only market `0xabc` rejects a trade on
the unknown market `0xdead` with a foreign-key violation, and accepts one on
`0xabc`. -/
theorem insert_trade_foreign_key_witness :
    dbC2.markets.contains "0xdead" = false ∧
    dbC2.insert_trade "t1" "0xdead" "tok1" "YES" (3/5) 5 "filled" true 0 =
      Except.error DbError.foreignKeyViolation ∧
    dbC2.insert_trade "t2" "0xabc" "tok1" "YES" (3/5) 5 "filled" true 0 =
      Except.ok { dbC2 with trades := dbC2.trades ++
        [⟨"t2", "0xabc", "tok1", "YES", 3/5, 5, "filled", true, 0⟩] } := by
  refine ⟨by decide, ?_, ?_⟩
  · exact (insert_trade_foreign_key dbC2 "t1" "0xdead" "tok1" "YES" (3/5) 5
      "filled" true 0).1.mpr (by decide)
  · exact (insert_trade_foreign_key dbC2 "t2" "0xabc" "tok1" "YES" (3/5) 5
      "filled" true 0).2 (by decide)

/-- Claim C8: `update_peak_bankroll` appends (and returns `current`) exactly
when the table is empty or `current` exceeds the stored peak, else returns
the stored peak without writing; the recorded peaks are monotonically
non-decreasing under any call sequence; and the sequence 50, 75, 60 leaves
the stored peak at 75. -/
theorem update_peak_bankroll_correct (db : Database) (current : ℚ) :
    (db.peak_bankroll = [] →
      db.update_peak_bankroll current =
        (current, { db with peak_bankroll := db.peak_bankroll ++ [current] })) ∧
    (∀ p, db.peak_bankroll.getLast? = some p →
      (p < current →
        db.update_peak_bankroll current =
          (current,
            { db with peak_bankroll := db.peak_bankroll ++ [current] })) ∧
      (current ≤ p → db.update_peak_bankroll current = (p, db))) ∧
    (List.Chain' (· ≤ ·) db.peak_bankroll →
      List.Chain' (· ≤ ·) (db.update_peak_bankroll current).2.peak_bankroll) ∧
    ((((emptyDatabase.update_peak_bankroll 50).2.update_peak_bankroll
        75).2.update_peak_bankroll 60).2.get_peak_bankroll = 75) := by
  refine ⟨?_, ?_, ?_, by decide⟩
  · intro h
    unfold Database.update_peak_bankroll
    rw [h]
    rfl
  · intro p hp
    constructor
    · intro hlt
      unfold Database.update_peak_bankroll
      rw [hp]
      simp [hlt]
    · intro hle
      unfold Database.update_peak_bankroll
      rw [hp]
      simp [not_lt.mpr hle]
  · intro hchain
    unfold Database.update_peak_bankroll
    cases hp : db.peak_bankroll.getLast? with
    | none =>
        have : db.peak_bankroll = [] := List.getLast?_eq_none_iff.mp hp
        simp [this]
    | some p =>
        by_cases hlt : p < current
        · simp only [if_pos hlt]
          refine List.chain'_append.mpr ⟨hchain, List.chain'_singleton _, ?_⟩
          intro x hx y hy
          simp only [List.head?_cons, Option.mem_def, Option.some.injEq] at hy
          rw [hp] at hx
          simp only [Option.mem_def, Option.some.injEq] at hx
          subst hx hy
          exact le_of_lt hlt
        · simpa [if_neg hlt] using hchain

/-- Witness for C8: starting from a table holding only 50, a call with 75
appends and returns 75; then a call with 60 returns 75 without writing; the
chain invariant is preserved. -/
theorem update_peak_bankroll_witness :
    dbPeak50.update_peak_bankroll 75 =
      (75, { dbPeak50 with peak_bankroll := dbPeak50.peak_bankroll ++ [75] }) ∧
    ({ dbPeak50 with
        peak_bankroll := dbPeak50.peak_bankroll ++ [75] } :
          Database).update_peak_bankroll 60 =
      (75, { dbPeak50 with peak_bankroll := dbPeak50.peak_bankroll ++ [75] }) ∧
    List.Chain' (· ≤ ·) (dbPeak50.update_peak_bankroll 75).2.peak_bankroll := by
  refine ⟨?_, ?_, ?_⟩
  · exact ((update_peak_bankroll_correct dbPeak50 75).2.1 50 (by decide)).1
      (by norm_num)
  · exact ((update_peak_bankroll_correct
      { dbPeak50 with peak_bankroll := dbPeak50.peak_bankroll ++ [75] } 60).2.1
        75 (by decide)).2 (by norm_num)
  · exact (update_peak_bankroll_correct dbPeak50 75).2.2.1
      (by show List.Chain' (· ≤ ·) [(50 : ℚ)]; exact List.chain'_singleton _)

/-- `List.find?` returns `none` when every element fails the predicate. -/
theorem find?_eq_none_of_all_false {α : Type} (p : α → Bool) (l : List α)
    (h : ∀ x ∈ l, p x = false) : l.find? p = none := by
  induction l with
  | nil => rfl
  | cons b t ih =>
      have hb := h b (List.mem_cons_self b t)
      simp only [List.find?, hb]
      exact ih (fun x hx => h x (List.mem_cons_of_mem b hx))

/-- Claim C10: on a ledger whose positions table decomposes as
`l1 ++ p :: l2` with `p` the unique open row for (market, side),
`close_position` returns `(exit_price - entry_price) * size` and modifies
only `p` — closing it, recording the exit price and realized P&L, zeroing the
unrealized P&L and stamping the update time — while `p`'s entry price, size,
side, token and market, the rows in `l1` and `l2`, and every other table are
unchanged. -/
theorem close_position_single_row (db : Database)
    (market_condition_id side : String) (exit_price : ℚ) (now : String)
    (l1 l2 : List PositionRecord) (p : PositionRecord)
    (hsplit : db.positions = l1 ++ p :: l2)
    (h1 : ∀ r ∈ l1, r.openFor market_condition_id side = false)
    (hp : p.openFor market_condition_id side = true)
    (h2 : ∀ r ∈ l2, r.openFor market_condition_id side = false) :
    db.close_position market_condition_id side exit_price now =
      some ((exit_price - p.entry_price) * p.size,
        { db with positions := l1 ++
            { p with
              status := "closed", current_price := some exit_price,
              realized_pnl := (exit_price - p.entry_price) * p.size,
              unrealized_pnl := 0, updated_at := now } :: l2 }) := by
  unfold Database.close_position
  rw [hsplit, find?_append_cons _ l1 l2 p h1 hp]
  dsimp only
  have h1' : ∀ x ∈ l1, ¬ (x.openFor market_condition_id side = true) := by
    intro x hx
    simp [h1 x hx]
  have h2' : ∀ x ∈ l2, ¬ (x.openFor market_condition_id side = true) := by
    intro x hx
    simp [h2 x hx]
  have hmap := map_ite_append
    (fun r => r.openFor market_condition_id side = true)
    (fun r => { r with
      status := "closed", current_price := some exit_price,
      realized_pnl := (exit_price - p.entry_price) * p.size,
      unrealized_pnl := 0, updated_at := now })
    l1 l2 p h1' h2' hp
  rw [hmap]

/-- Witness for C10: in the three-row fixture, closing the open `0xc1` YES
position at 0.8 updates only that row. -/
theorem close_position_single_row_witness :
    dbPositions.close_position "0xc1" "YES" (4/5) "t1" =
      some ((4/5 - pOpen.entry_price) * pOpen.size,
        { dbPositions with positions := [pClosed] ++
            { pOpen with
              status := "closed", current_price := some (4/5),
              realized_pnl := (4/5 - pOpen.entry_price) * pOpen.size,
              unrealized_pnl := 0, updated_at := "t1" } :: [pOther] }) :=
  close_position_single_row dbPositions "0xc1" "YES" (4/5) "t1"
    [pClosed] [pOther] pOpen rfl (by decide) (by decide) (by decide)

/-- Claim C9: `upsert_position_with_estimate` called with `none` coincides
with `upsert_position` (so the stored estimate of an existing open position
is left unchanged), passing `some e` overwrites the stored estimate while
aggregating entry price and size identically, and a fresh insert stores the
given optional estimate directly. -/
theorem upsert_position_with_estimate_correct (db : Database)
    (market_condition_id token_id side : String) (entry_price size : ℚ)
    (est : Option ℚ) (now : String) (l1 l2 : List PositionRecord)
    (p : PositionRecord) :
    (db.upsert_position_with_estimate market_condition_id token_id side
        entry_price size none now =
      db.upsert_position market_condition_id token_id side entry_price size
        now) ∧
    (db.positions = l1 ++ p :: l2 →
      (∀ r ∈ l1, r.openFor market_condition_id side = false) →
      p.openFor market_condition_id side = true →
      (∀ r ∈ l1, r.id ≠ p.id) → (∀ r ∈ l2, r.id ≠ p.id) →
      (db.upsert_position_with_estimate market_condition_id token_id side
          entry_price size est now).positions =
        l1 ++ { p with
          entry_price := (p.entry_price * p.size + entry_price * size) /
            (p.size + size),
          size := p.size + size, token_id := token_id,
          estimated_probability :=
            match est with
            | some e => some e
            | none => p.estimated_probability,
          updated_at := now } :: l2) ∧
    ((∀ r ∈ db.positions, r.openFor market_condition_id side = false) →
      (db.upsert_position_with_estimate market_condition_id token_id side
          entry_price size est now).positions =
        db.positions ++
          [⟨db.next_position_id, market_condition_id, token_id, side,
            entry_price, none, size, 0, 0, "open", est, now⟩]) := by
  refine ⟨rfl, ?_, ?_⟩
  · intro hsplit h1 hp hid1 hid2
    unfold Database.upsert_position_with_estimate
    rw [hsplit, find?_append_cons _ l1 l2 p h1 hp]
    dsimp only
    have h1' : ∀ x ∈ l1, ¬ (x.id = p.id) := hid1
    have h2' : ∀ x ∈ l2, ¬ (x.id = p.id) := hid2
    exact map_ite_append (fun r => r.id = p.id) _ l1 l2 p h1' h2' rfl
  · intro hall
    unfold Database.upsert_position_with_estimate
    rw [find?_eq_none_of_all_false _ _ hall]

/-- Witness for C9: in the three-row fixture, upserting onto the open `0xc1`
YES row with `some 0.8` aggregates the entry and overwrites the estimate;
with `none` the call coincides with `upsert_position`. -/
theorem upsert_position_with_estimate_witness :
    (dbPositions.upsert_position_with_estimate "0xc1" "tok1b" "YES" (7/10) 10
        none "t1" =
      dbPositions.upsert_position "0xc1" "tok1b" "YES" (7/10) 10 "t1") ∧
    (dbPositions.upsert_position_with_estimate "0xc1" "tok1b" "YES" (7/10) 10
        (some (4/5)) "t1").positions =
      [pClosed] ++ { pOpen with
        entry_price := (pOpen.entry_price * pOpen.size + (7/10) * 10) /
          (pOpen.size + 10),
        size := pOpen.size + 10, token_id := "tok1b",
        estimated_probability :=
          match (some (4/5) : Option ℚ) with
          | some e => some e
          | none => pOpen.estimated_probability,
        updated_at := "t1" } :: [pOther] := by
  have h := upsert_position_with_estimate_correct dbPositions "0xc1" "tok1b"
    "YES" (7/10) 10 (some (4/5)) "t1" [pClosed] [pOther] pOpen
  exact ⟨(upsert_position_with_estimate_correct dbPositions "0xc1" "tok1b"
      "YES" (7/10) 10 (some (4/5)) "t1" [pClosed] [pOther] pOpen).1,
    h.2.1 rfl (by decide) (by decide) (by decide) (by decide)⟩

/-- Two successive early-`none` guards collapse to a single conjunction. -/
theorem ite_chain {α : Type} (c1 c2 : Prop) [Decidable c1] [Decidable c2]
    (y x : α) :
    (if c1 then y else if c2 then y else x) =
      (if ¬ c1 ∧ ¬ c2 then x else y) := by
  split_ifs <;> first | rfl | tauto

/-- Claim C3: `size_position_with_time` computes buy price, win probability
and raw Kelly as specified and rejects, in this order, on buy price at or
above 1, non-positive Kelly, exhausted exposure headroom and sub-$1 position,
else accepts with `position_usd = min(raw_kelly * kelly_fraction *
time_multiplier(d) * bankroll, max_position_pct * bankroll, remaining)`,
`shares = position_usd / buy_price` and `limit_price = buy_price`
(`sizePositionSpec` is the claim's wording); on the spec's YES example
(estimate 0.75, market 0.55, bankroll 50, exposure 0, half-Kelly, 6% cap) the
result is a $3.00 position at limit 0.55 with 60/11 ≈ 5.45 shares. -/
theorem size_position_matches_spec :
    (∀ (s : PositionSizer) (opp : EdgeOpportunity)
        (bankroll current_exposure : ℚ) (d : Option Int),
      s.size_position_with_time opp bankroll current_exposure d =
        s.sizePositionSpec opp bankroll current_exposure d) ∧
    (PositionSizer.mk 0.5 0.06 0.40).size_position_with_time
        ⟨"0xtest", "Test market?", TradeSide.Yes, 0.75, 0.55, 0.20, 0.20,
          0.85, "high", "Test reasoning", 0.01⟩ 50 0 none =
      ⟨4/9, 2/9, 3, 60/11, 0.55, none⟩ := by
  constructor
  · intro s opp bankroll current_exposure d
    unfold PositionSizer.size_position_with_time PositionSizer.sizePositionSpec
    cases d with
    | none => simp only [mul_one]
    | some days => rfl
  · norm_num [PositionSizer.size_position_with_time, min_def, max_def]

/-- Claim C4: `detect` accepts iff the fee-adjusted edge meets the threshold
and the confidence meets the minimum, choosing the YES side on ties and
reporting `edge = max(e-m, m-e)` and `net_edge = edge - 2*fee_rate`
(`detectSpec` is the claim's wording); with `fee_rate = 0`, an edge exactly
equal to the threshold is accepted. -/
theorem detect_matches_spec :
    (∀ (d : EdgeDetector) (a : AnalysisResult), d.detect a = d.detectSpec a) ∧
    ((EdgeDetector.new 0.08 0).detect
        ⟨"0xt", "Q?", ⟨0.68, 0.85, "r", "high"⟩, 0.60, 0.01, []⟩).isSome
      = true := by
  constructor
  · intro d a
    unfold EdgeDetector.detect EdgeDetector.detectSpec
    dsimp only
    by_cases hge : a.market_yes_price - a.estimate.probability ≤
        a.estimate.probability - a.market_yes_price
    · rw [max_eq_left hge]
      simp only [ge_iff_le, if_pos hge]
      rw [ite_chain]
      exact if_congr (by simp [not_lt]) rfl rfl
    · rw [max_eq_right (le_of_not_le hge)]
      simp only [ge_iff_le, if_neg hge]
      rw [ite_chain]
      exact if_congr (by simp [not_lt]) rfl rfl
  · norm_num [EdgeDetector.detect, EdgeDetector.new]

/-- Claim C5: `evaluate_position` applies first-match-wins checks — weather
positions skip stop-loss and take-profit entirely and only edge decay can
trigger an exit; otherwise stop-loss fires on
`(entry - current)/entry > stop_loss_pct`, then take-profit on
`(current - entry)/(1 - entry) ≥ take_profit_pct`, then (when a stored
estimate exists) edge decay on `|estimate - current| < min_exit_edge`, else
Hold (`evaluatePositionSpec` is the claim's wording) — for any entry price
strictly between 0 and 1, i.e. a price an open binary position can have. -/
theorem evaluate_position_matches_spec (parse_weather_is_some : String → Bool)
    (m : PositionManager) (pos : PositionRow) (current_price : ℚ)
    (hent0 : 0 < pos.entry_price) (hent1 : pos.entry_price < 1) :
    PositionManager.evaluate_position parse_weather_is_some m pos
        current_price =
      PositionManager.evaluatePositionSpec parse_weather_is_some m pos
        current_price := by
  unfold PositionManager.evaluate_position
    PositionManager.evaluatePositionSpec PositionManager.check_stop_loss
    PositionManager.check_take_profit PositionManager.check_edge_decay
  have g0 : ¬ pos.entry_price ≤ 0 := not_le.mpr hent0
  have g1 : ¬ pos.entry_price ≥ 1 := not_le.mpr hent1
  have g2 : ¬ ((1 : ℚ) - pos.entry_price ≤ 0) := by
    intro hc
    linarith
  simp only [g0, g1, g2, if_false]
  cases hq : pos.question <;> cases he : pos.estimated_probability <;>
    (try split_ifs) <;> (try simp_all)

/-- Witness for C5: with the fixture manager, a weather position entered at
0.036 whose price dropped to 0.012 (a 67% drop) still returns Hold, because
weather markets skip the price-based exits and its edge has not decayed. -/
theorem evaluate_position_witness :
    (0 < weatherPos.entry_price ∧ weatherPos.entry_price < 1) ∧
    PositionManager.evaluate_position (fun _ => true) weatherManager
        weatherPos 0.012 =
      PositionManager.evaluatePositionSpec (fun _ => true) weatherManager
        weatherPos 0.012 ∧
    PositionManager.evaluate_position (fun _ => true) weatherManager
        weatherPos 0.012 = PositionAction.Hold := by
  have h0 : (0 : ℚ) < weatherPos.entry_price := by norm_num [weatherPos]
  have h1 : weatherPos.entry_price < 1 := by norm_num [weatherPos]
  have heq := evaluate_position_matches_spec (fun _ => true) weatherManager
    weatherPos 0.012 h0 h1
  refine ⟨⟨h0, h1⟩, heq, heq.trans ?_⟩
  have habs : |(369 : ℚ) / 500| = 369 / 500 := abs_of_nonneg (by norm_num)
  norm_num [PositionManager.evaluatePositionSpec,
    PositionManager.check_edge_decay, weatherManager, weatherPos, habs]

/-- Claim C6: `Estimator::evaluate` returns `None` with no LLM call performed
when the cycle cost already meets the cap; otherwise it performs triage and
returns `None` on a Skip decision or when the cost including triage meets the
cap; only otherwise does it perform the deep analysis and return a result
whose `total_cost` is the sum of the triage and analysis costs — budget
exhaustion silently yields `None` rather than an error. -/
theorem estimator_evaluate_budget (t : TriageDecision × ApiCallCost)
    (a : FairValueEstimate × ApiCallCost) (market : GammaMarket)
    (prices : MarketPrices) (cycle_cost_so_far max_cost_per_cycle : ℚ) :
    (max_cost_per_cycle ≤ cycle_cost_so_far →
      Estimator.evaluate t a market prices cycle_cost_so_far
        max_cost_per_cycle = (none, [])) ∧
    (cycle_cost_so_far < max_cost_per_cycle → t.1 = TriageDecision.Skip →
      Estimator.evaluate t a market prices cycle_cost_so_far
        max_cost_per_cycle = (none, [LlmCall.triage])) ∧
    (cycle_cost_so_far < max_cost_per_cycle → t.1 = TriageDecision.Analyze →
      max_cost_per_cycle ≤ cycle_cost_so_far + t.2.cost_usd →
      Estimator.evaluate t a market prices cycle_cost_so_far
        max_cost_per_cycle = (none, [LlmCall.triage])) ∧
    (cycle_cost_so_far < max_cost_per_cycle → t.1 = TriageDecision.Analyze →
      cycle_cost_so_far + t.2.cost_usd < max_cost_per_cycle →
      Estimator.evaluate t a market prices cycle_cost_so_far
          max_cost_per_cycle =
        (some
          { market_id := market.condition_id.getD ""
            question := market.question
            estimate := a.1
            market_yes_price := prices.midpoint
            total_cost := t.2.cost_usd + a.2.cost_usd
            api_calls := [t.2, a.2] },
         [LlmCall.triage, LlmCall.analysis])) := by
  refine ⟨?_, ?_, ?_, ?_⟩
  · intro h
    unfold Estimator.evaluate
    rw [if_pos h]
  · intro h hskip
    unfold Estimator.evaluate
    rw [if_neg (not_le.mpr h)]
    dsimp only
    rw [if_pos hskip]
  · intro h hana hb
    unfold Estimator.evaluate
    rw [if_neg (not_le.mpr h)]
    dsimp only
    rw [if_neg (by simp [hana]), if_pos hb]
  · intro h hana hb
    unfold Estimator.evaluate
    rw [if_neg (not_le.mpr h)]
    dsimp only
    rw [if_neg (by simp [hana]), if_neg (not_le.mpr hb)]

/-- Witness for C6: with zero cost so far, a 0.5 cap, a triage cost of 0.001
and an Analyze decision, the full pipeline runs: both calls are performed and
the total cost is the sum of the two call costs. -/
theorem estimator_evaluate_budget_witness :
    ((0 : ℚ) < 1/2) ∧ ((0 : ℚ) + 1/1000 < 1/2) ∧
    Estimator.evaluate (TriageDecision.Analyze, ⟨"haiku", 500, 50, 1/1000⟩)
        (⟨31/50, 4/5, "r", "high"⟩, ⟨"sonnet", 2000, 200, 9/1000⟩)
        ⟨some "0xabc", "Q?"⟩ ⟨11/20⟩ 0 (1/2) =
      (some
        { market_id := "0xabc"
          question := "Q?"
          estimate := ⟨31/50, 4/5, "r", "high"⟩
          market_yes_price := 11/20
          total_cost := 1/1000 + 9/1000
          api_calls := [⟨"haiku", 500, 50, 1/1000⟩,
            ⟨"sonnet", 2000, 200, 9/1000⟩] },
       [LlmCall.triage, LlmCall.analysis]) := by
  refine ⟨by norm_num, by norm_num, ?_⟩
  exact (estimator_evaluate_budget
    (TriageDecision.Analyze, ⟨"haiku", 500, 50, 1/1000⟩)
    (⟨31/50, 4/5, "r", "high"⟩, ⟨"sonnet", 2000, 200, 9/1000⟩)
    ⟨some "0xabc", "Q?"⟩ ⟨11/20⟩ 0 (1/2)).2.2.2
    (by norm_num) rfl (by norm_num)

end PolymarketAgent
